import Mathlib

/-!
# Greenlight request-handling core: a shallow embedding

A shallow embedding, in Lean 4, of the request-handling concurrency core of the
`greenlight` Go service: the per-client token-bucket rate limiter and client
registry (`cmd/api/middleware.go`, `rateLimit`), the authentication middleware
(`authenticate`), the middleware pipeline composed in `cmd/api/routes.go`, the
terminal-side guards (`requireAuthenticatedUser`, `requireActivatedUser`,
`requirePermissions`), and the graceful-shutdown coordinator
(`cmd/api/server.go`, `serve`).

Time and token counts are represented as rationals (`ℚ`); Go maps become
association lists; goroutine interleavings relevant to the claims are made
explicit as step functions over small state records.
-/

namespace Greenlight

/-! ## Token-bucket limiter

The repository delegates the bucket itself to the external dependency
`golang.org/x/time/rate` (`rate.NewLimiter(r, b)` / `limiter.Allow()`), whose
source is not part of the repository. -/

/-- Modelled from the spec (§4.1, TokenBucketLimiter), standing in for the
external `rate.Limiter`: the state is the current token count and the time of
the last refill. -/
structure Limiter where
  tokens : ℚ
  lastRefill : ℚ
  deriving DecidableEq, Repr

/-- Modelled from the spec (§4.1): `allow()` at time `now` first refills
`rate * (now - lastRefill)` tokens clamped at `capacity`, then, if at least one
token is available, consumes one and admits; otherwise rejects without moving
the token count downward. -/
def Limiter.allow (rate capacity now : ℚ) (l : Limiter) : Bool × Limiter :=
  if 1 ≤ min capacity (l.tokens + rate * (now - l.lastRefill)) then
    (true, ⟨min capacity (l.tokens + rate * (now - l.lastRefill)) - 1, now⟩)
  else
    (false, ⟨min capacity (l.tokens + rate * (now - l.lastRefill)), now⟩)

/-- Modelled from the spec (§4.1): a freshly created limiter
(`rate.NewLimiter`) starts with a full bucket. -/
def Limiter.new (capacity now : ℚ) : Limiter := ⟨capacity, now⟩

/-- Run a sequence of `allow` calls at the given (nondecreasing) times,
returning the final limiter state. -/
def allowRun (rate capacity : ℚ) (l : Limiter) : List ℚ → Limiter
  | [] => l
  | t :: ts => allowRun rate capacity (Limiter.allow rate capacity t l).2 ts

/-- The number of `allow` calls that return `true` and whose call time lies in
the closed window `[lo, hi]`, over a sequence of calls at the given times. -/
def admitCountIn (rate capacity lo hi : ℚ) (l : Limiter) : List ℚ → ℕ
  | [] => 0
  | t :: ts =>
      (if (Limiter.allow rate capacity t l).1 ∧ lo ≤ t ∧ t ≤ hi then 1 else 0) +
        admitCountIn rate capacity lo hi (Limiter.allow rate capacity t l).2 ts

/-! ## Client registry (`cmd/api/middleware.go`, `rateLimit`)

The Go `clients` map (`map[string]*client`) becomes an association list with
unique keys; the mutex-serialized handler body and the once-a-minute sweep
goroutine become the pure step functions below. -/

/-- The per-client record of `rateLimit`:
`type client struct { limiter *rate.Limiter; lastSeen time.Time }`. -/
structure client where
  limiter : Limiter
  lastSeen : ℚ
  deriving DecidableEq, Repr

/-- The `clients` map of `rateLimit`, keyed by the client IP string. -/
abbrev ClientMap := List (String × client)

/-- Go map read `clients[ip]`. -/
def lookupClient (ip : String) : ClientMap → Option client
  | [] => none
  | p :: m => if p.1 = ip then some p.2 else lookupClient ip m

/-- Go map write `clients[ip] = c` (replace if present, insert otherwise). -/
def setClient (ip : String) (c : client) : ClientMap → ClientMap
  | [] => [(ip, c)]
  | p :: m => if p.1 = ip then (ip, c) :: m else p :: setClient ip c m

/-- The sweep body run once per minute tick: delete every entry with
`time.Since(client.lastSeen) > 3*time.Minute`; an entry survives iff
`now - lastSeen ≤ 180` seconds. -/
def sweepClients (now : ℚ) (m : ClientMap) : ClientMap :=
  m.filter (fun p => !(decide (now - p.2.lastSeen > 180)))

/-- The mutex-protected body of the `rateLimit` handler for one request from
`ip` at time `now`: look up (or lazily create, with a limiter configured from
the `rps`/`burst` settings) the client's entry, update `lastSeen`, and delegate
the decision to that entry's limiter. -/
def rateLimitAdmit (rps burst : ℚ) (ip : String) (now : ℚ) (m : ClientMap) :
    Bool × ClientMap :=
  match lookupClient ip m with
  | none =>
      let step := Limiter.allow rps burst now (Limiter.new burst now)
      (step.1, setClient ip ⟨step.2, now⟩ m)
  | some c =>
      let step := Limiter.allow rps burst now c.limiter
      (step.1, setClient ip ⟨step.2, now⟩ m)

/-- A sequence of admission checks for one identity `ip` at the given times. -/
def runAdmits (rps burst : ℚ) (ip : String) (m : ClientMap) : List ℚ → ClientMap
  | [] => m
  | t :: ts => runAdmits rps burst ip (rateLimitAdmit rps burst ip t m).2 ts

/-! ## Identities, collaborators, responses

`internal/data` (`User`, `AnonymousUser`, `ValidateTokenPlaintext`,
`GetForToken`, `Permissions`), `cmd/api/errors.go` and `cmd/api/context.go`
are not under the available source tree; the definitions below that mention it
are modelled from the spec. -/

/-- Modelled from the spec (§3, RequestIdentity): the identity attached to a
request context is either `Anonymous` (the `data.AnonymousUser` sentinel,
whose zero-value `Activated` field is `false`) or an authenticated user. -/
inductive Identity where
  | anonymous
  | authenticated (userId : ℕ) (activated : Bool)
  deriving DecidableEq, Repr

/-- `user.IsAnonymous()`. -/
def Identity.isAnonymous : Identity → Bool
  | .anonymous => true
  | .authenticated _ _ => false

/-- `user.Activated` (the zero value `false` for `AnonymousUser`). -/
def Identity.activatedFlag : Identity → Bool
  | .anonymous => false
  | .authenticated _ a => a

/-- `user.ID` (the zero value `0` for `AnonymousUser`). -/
def Identity.userIdOf : Identity → ℕ
  | .anonymous => 0
  | .authenticated i _ => i

/-- Modelled from the spec (§6): the identity-lookup collaborator fails with a
distinguishable "not found" condition (`data.ErrRecordNotFound`) vs. any other
storage fault. -/
inductive LookupErr where
  | recordNotFound
  | other
  deriving DecidableEq, Repr

/-- Modelled from the spec (§6): the scope discriminator passed to the token
lookup; `authenticate` uses `data.ScopeAuthentication`. -/
def scopeAuthentication : String := "authentication"

/-- The external collaborators and process-wide configuration consumed by the
middleware pipeline (spec §6): token lookup (`app.models.Users.GetForToken`),
permission lookup (`app.models.Permissions.GetAllForUser`), the CORS trusted
origins and the limiter settings (`app.config`). -/
structure Env where
  getForToken : String → String → Except LookupErr (ℕ × Bool)
  permissionsFor : ℕ → Except Unit (List String)
  trustedOrigins : List String
  limiterEnabled : Bool
  rps : ℚ
  burst : ℚ

/-- Modelled from the spec (§4.3): the cheap structural validation
(`data.ValidateTokenPlaintext`): the token must be provided and be exactly 26
bytes long. -/
def validTokenPlaintext (token : String) : Bool :=
  !(decide (token = "")) && decide (token.length = 26)

/-- The classification of a response body (spec §7 error taxonomy); the
repository's `cmd/api/errors.go` helpers are modelled from the spec. -/
inductive RespKind where
  | handlerOutput
  | admissionRejected
  | invalidCredential
  | serverFault
  | authenticationRequired
  | inactiveAccount
  | permissionDenied
  | preflight
  deriving DecidableEq, Repr

/-- A response: final status code plus the taxonomy category of its body. -/
structure Response where
  status : ℕ
  kind : RespKind
  deriving DecidableEq, Repr

/-- Modelled from the spec (§7, AdmissionRejected): `rateLimitExceededResponse`
sends 429 Too Many Requests. -/
def rateLimitExceededResponse : Response := ⟨429, .admissionRejected⟩

/-- Modelled from the spec (§7, InvalidCredential):
`invalidAuthenticationTokenResponse` sends 401 Unauthorized. -/
def invalidAuthenticationTokenResponse : Response := ⟨401, .invalidCredential⟩

/-- Modelled from the spec (§7, ResolutionFailure / HandlerFault):
`serverErrorResponse` sends a generic 500 Internal Server Error. -/
def serverErrorResponse : Response := ⟨500, .serverFault⟩

/-- Modelled from the spec (§7, AuthenticationRequired):
`authenticationRequiredResponse` sends 401 Unauthorized. -/
def authenticationRequiredResponse : Response := ⟨401, .authenticationRequired⟩

/-- Modelled from the spec (§7, AccountNotActivated): `inactiveAccountResponse`
sends 403 Forbidden. -/
def inactiveAccountResponse : Response := ⟨403, .inactiveAccount⟩

/-- Modelled from the spec (§7, PermissionDenied): `notPermittedResponse` sends
403 Forbidden. -/
def notPermittedResponse : Response := ⟨403, .permissionDenied⟩

/-- The preflight short-circuit response written by `enableCORS`
(`w.WriteHeader(http.StatusOK)`). -/
def preflightResponse : Response := ⟨200, .preflight⟩

/-! ## The middleware pipeline (`cmd/api/routes.go`, `cmd/api/middleware.go`) -/

/-- A request, as far as the pipeline inspects it: the header values read by
the middleware, the client IP (`realip.FromRequest`), the request time, and
the request-scoped context user set by `contextSetUser`. `""` stands for an
absent header, as in Go's `Header.Get`. -/
structure Request where
  authorizationHeader : String
  origin : String
  method : String
  accessControlRequestMethod : String
  ip : String
  now : ℚ
  ctxUser : Option Identity
  deriving DecidableEq, Repr

/-- Modelled from the spec (§4.3, `cmd/api/context.go` not under the source
tree): `contextGetUser` reads the request-scoped identity; the pipeline always
sets it before any handler that reads it. -/
def contextGetUser (r : Request) : Identity := r.ctxUser.getD .anonymous

/-- Response-writer headers. `w.Header().Set(k, v)` replaces any existing
value for the key (our keys of interest are already in Go's canonical form,
except the literal `"Connection:"` key which Go's canonicalization leaves
unchanged because of the `:` character). -/
def setHeader (k v : String) : List (String × String) → List (String × String)
  | [] => [(k, v)]
  | p :: h => if p.1 = k then (k, v) :: h else p :: setHeader k v h

/-- The observable outcome of running a handler: either a single response was
written, or a panic escaped the handler. -/
inductive PResult where
  | ok (resp : Response)
  | panicked (msg : String)
  deriving DecidableEq, Repr

/-- Process-wide mutable state threaded through a request: the rate limiter's
client map and the expvar counters maintained by `metrics`. -/
structure AppState where
  clients : ClientMap
  totalRequestsReceived : ℕ
  totalResponsesSent : ℕ
  responsesByStatus : ℕ → ℕ

/-- The request-scoped context: the response writer's headers plus the shared
application state. -/
structure Ctx where
  header : List (String × String)
  state : AppState

/-- The stages of the middleware chain, in the order they appear in
`routes()`. -/
inductive Stage where
  | metricsStage
  | recoverPanicStage
  | enableCORSStage
  | rateLimitStage
  | authenticateStage
  | routerStage
  deriving DecidableEq, Repr

/-- A terminal handler (the router with its registered handlers). -/
abbrev Terminal := Request → Ctx → PResult × Ctx

/-- A middleware-wrapped handler; the `List Stage` component is the trace of
stages entered while serving the request, outermost first. -/
abbrev Handler := Request → Ctx → PResult × Ctx × List Stage

/-- Terminal dispatch: the `httprouter` router at the center of the chain. -/
def dispatch (term : Terminal) : Handler := fun r c =>
  ((term r c).1, (term r c).2, [Stage.routerStage])

/-- The context after `authenticate` adds its `Vary: Authorization` header. -/
def varyAuth (c : Ctx) : Ctx :=
  { c with header := setHeader "Vary" "Authorization" c.header }

/-- `authenticate` (middleware.go): set `Vary: Authorization`; no header ⇒
anonymous context; malformed header or invalid token ⇒ 401; lookup miss ⇒ 401;
other lookup error ⇒ 500; hit ⇒ user context. -/
def authenticate (env : Env) (next : Handler) : Handler := fun r c =>
  if r.authorizationHeader = "" then
    ((next { r with ctxUser := some .anonymous } (varyAuth c)).1,
     (next { r with ctxUser := some .anonymous } (varyAuth c)).2.1,
     Stage.authenticateStage ::
       (next { r with ctxUser := some .anonymous } (varyAuth c)).2.2)
  else
    match r.authorizationHeader.splitOn " " with
    | [scheme, token] =>
        if scheme = "Bearer" then
          if validTokenPlaintext token then
            match env.getForToken scopeAuthentication token with
            | .ok (uid, act) =>
                ((next { r with ctxUser := some (.authenticated uid act) } (varyAuth c)).1,
                 (next { r with ctxUser := some (.authenticated uid act) } (varyAuth c)).2.1,
                 Stage.authenticateStage ::
                   (next { r with ctxUser := some (.authenticated uid act) } (varyAuth c)).2.2)
            | .error .recordNotFound =>
                (.ok invalidAuthenticationTokenResponse, varyAuth c, [Stage.authenticateStage])
            | .error .other =>
                (.ok serverErrorResponse, varyAuth c, [Stage.authenticateStage])
          else (.ok invalidAuthenticationTokenResponse, varyAuth c, [Stage.authenticateStage])
        else (.ok invalidAuthenticationTokenResponse, varyAuth c, [Stage.authenticateStage])
    | _ => (.ok invalidAuthenticationTokenResponse, varyAuth c, [Stage.authenticateStage])

/-- The context after `rateLimit` writes the updated client map back. -/
def withClients (c : Ctx) (m : ClientMap) : Ctx :=
  { c with state := { c.state with clients := m } }

/-- `rateLimit` (middleware.go): when the limiter is enabled, run the
mutex-protected admission check for the request's IP; on rejection send 429
and stop, otherwise continue down the chain. -/
def rateLimit (env : Env) (next : Handler) : Handler := fun r c =>
  if env.limiterEnabled then
    if (rateLimitAdmit env.rps env.burst r.ip r.now c.state.clients).1 then
      ((next r (withClients c (rateLimitAdmit env.rps env.burst r.ip r.now c.state.clients).2)).1,
       (next r (withClients c (rateLimitAdmit env.rps env.burst r.ip r.now c.state.clients).2)).2.1,
       Stage.rateLimitStage ::
         (next r (withClients c (rateLimitAdmit env.rps env.burst r.ip r.now c.state.clients).2)).2.2)
    else
      (.ok rateLimitExceededResponse,
       withClients c (rateLimitAdmit env.rps env.burst r.ip r.now c.state.clients).2,
       [Stage.rateLimitStage])
  else
    ((next r c).1, (next r c).2.1, Stage.rateLimitStage :: (next r c).2.2)

/-- The headers `enableCORS` always sets (the source's two `Vary` writes; the
second `Set` call replaces the first, as `Header.Set` does). -/
def corsVary (c : Ctx) : Ctx :=
  { c with header := (setHeader "Vary" "Access-Control-Request-Method"
                       (setHeader "Vary" "Origin" c.header)) }

/-- The headers set once a trusted origin matched. -/
def corsAllowOrigin (origin : String) (c : Ctx) : Ctx :=
  { c with header := setHeader "Access-Control-Allow-Origin" origin c.header }

/-- The extra preflight response headers. -/
def corsPreflightHeaders (c : Ctx) : Ctx :=
  { c with header := (setHeader "Access-Control-Max-Age" "60"
                       (setHeader "Access-Control-Allow-Headers" "Authorization, Content-Type"
                         (setHeader "Access-Control-Allow-Methods" "OPTIONS, PUT, PATCH, DELETE"
                           c.header))) }

/-- `enableCORS` (middleware.go): set the two `Vary` headers; if the `Origin`
header is present and matches a trusted origin, reflect it in
`Access-Control-Allow-Origin`, and answer preflight requests (`OPTIONS` with
an `Access-Control-Request-Method` header) directly with 200. The source's
first-match loop over `trustedOrigins` is equivalent to list membership. -/
def enableCORS (env : Env) (next : Handler) : Handler := fun r c =>
  if !(decide (r.origin = "")) && env.trustedOrigins.contains r.origin then
    if r.method = "OPTIONS" && !(decide (r.accessControlRequestMethod = "")) then
      (.ok preflightResponse,
       corsPreflightHeaders (corsAllowOrigin r.origin (corsVary c)),
       [Stage.enableCORSStage])
    else
      ((next r (corsAllowOrigin r.origin (corsVary c))).1,
       (next r (corsAllowOrigin r.origin (corsVary c))).2.1,
       Stage.enableCORSStage :: (next r (corsAllowOrigin r.origin (corsVary c))).2.2)
  else
    ((next r (corsVary c)).1,
     (next r (corsVary c)).2.1,
     Stage.enableCORSStage :: (next r (corsVary c)).2.2)

/-- The deferred `recover()` of `recoverPanic`: on a panic it sets a header
whose NAME is the literal string `"Connection:"` — the source reads
`w.Header().Set("Connection:", "close")`, with a trailing colon inside the
key — and converts the panic into `serverErrorResponse`. -/
def recoverHeaders (res : PResult) (h : List (String × String)) :
    List (String × String) :=
  match res with
  | .panicked _ => setHeader "Connection:" "close" h
  | .ok _ => h

/-- The response produced after `recover()`: a panic becomes the 500 response;
a normal response passes through. -/
def recoverResult (res : PResult) : PResult :=
  match res with
  | .panicked _ => .ok serverErrorResponse
  | .ok resp => .ok resp

/-- `recoverPanic` (middleware.go): run the rest of the chain and catch any
panic raised on the same goroutine. -/
def recoverPanic (next : Handler) : Handler := fun r c =>
  (recoverResult (next r c).1,
   { (next r c).2.1 with
      header := recoverHeaders (next r c).1 (next r c).2.1.header },
   Stage.recoverPanicStage :: (next r c).2.2)

/-- The trailing accounting of `metrics` (middleware.go): after the inner
chain returns, bump `total_responses_sent` and the per-status tally. A panic
propagating through `httpsnoop.CaptureMetrics` skips the trailing code. -/
def metricsAccount (res : PResult) (st : AppState) : AppState :=
  match res with
  | .ok resp =>
      { st with
        totalResponsesSent := st.totalResponsesSent + 1,
        responsesByStatus := fun s =>
          if s = resp.status then st.responsesByStatus s + 1
          else st.responsesByStatus s }
  | .panicked _ => st

/-- The context after `metrics` bumps `total_requests_received`. -/
def bumpRequests (c : Ctx) : Ctx :=
  { c with state :=
    { c.state with totalRequestsReceived := c.state.totalRequestsReceived + 1 } }

/-- `metrics` (middleware.go): bump `total_requests_received`, run the inner
chain, then run the trailing accounting. -/
def metrics (next : Handler) : Handler := fun r c =>
  ((next r (bumpRequests c)).1,
   { (next r (bumpRequests c)).2.1 with
      state := metricsAccount (next r (bumpRequests c)).1
        (next r (bumpRequests c)).2.1.state },
   Stage.metricsStage :: (next r (bumpRequests c)).2.2)

/-- `routes()` (routes.go, line 85):
`app.metrics(app.recoverPanic(app.enableCORS(app.rateLimit(app.authenticate(router)))))`. -/
def routes (env : Env) (term : Terminal) : Handler :=
  metrics (recoverPanic (enableCORS env (rateLimit env (authenticate env (dispatch term)))))

/-! ## Terminal-side guards (middleware.go) -/

/-- Observable events at the guard level: a query to the external permission
collaborator, and the wrapped business handler actually running. -/
inductive GuardEvent where
  | permissionQuery
  | handlerInvoked
  deriving DecidableEq, Repr

/-- A guard-wrapped `http.HandlerFunc`, with the guard-level event trace. -/
abbrev GHandler := Request → Ctx → PResult × Ctx × List GuardEvent

/-- `requireAuthenticatedUser` (middleware.go): reject anonymous identities
with `authenticationRequiredResponse`. -/
def requireAuthenticatedUser (next : GHandler) : GHandler := fun r c =>
  if (contextGetUser r).isAnonymous then
    (.ok authenticationRequiredResponse, c, [])
  else next r c

/-- `requireActivatedUser` (middleware.go): reject non-activated users with
`inactiveAccountResponse`; composed inside `requireAuthenticatedUser`. -/
def requireActivatedUser (next : GHandler) : GHandler :=
  requireAuthenticatedUser (fun r c =>
    if !(contextGetUser r).activatedFlag then
      (.ok inactiveAccountResponse, c, [])
    else next r c)

/-- `requirePermissions` (middleware.go): fetch the user's permission codes
from the external collaborator; on a fault send 500, on a missing code send
403, otherwise run the wrapped handler; composed inside
`requireActivatedUser`. -/
def requirePermissions (env : Env) (code : String) (next : GHandler) : GHandler :=
  requireActivatedUser (fun r c =>
    match env.permissionsFor (contextGetUser r).userIdOf with
    | .error _ => (.ok serverErrorResponse, c, [.permissionQuery])
    | .ok perms =>
        if !perms.contains code then
          (.ok notPermittedResponse, c, [.permissionQuery])
        else
          ((next r c).1, (next r c).2.1,
           .permissionQuery :: .handlerInvoked :: (next r c).2.2))

/-! ## Authentication outcome classification (for the case-analysis claim) -/

/-- The possible outcomes of the authentication stage, as the claim and spec
(§4.3) phrase them. -/
inductive AuthOutcome where
  | proceedAnonymous
  | proceedAuthenticated (userId : ℕ) (activated : Bool)
  | rejectInvalidCredential
  | serverFault
  deriving DecidableEq, Repr

/-- An injective encoding of the context identity into a status code, used by
the probe handler below to make the identity reaching the next stage
observable. -/
def identCode : Identity → ℕ
  | .anonymous => 1
  | .authenticated uid act => 2 * uid + (if act then 3 else 2)

/-- A probe handler placed after `authenticate`: it reports, through its
status code, which identity the authentication stage attached to the request
context. -/
def authProbe : Handler := fun r c =>
  (.ok ⟨identCode (contextGetUser r), .handlerOutput⟩, c, [])

/-- The observable outcome of running the real `authenticate` middleware over
the probe: decode which branch the middleware took. -/
def authResult (env : Env) (r : Request) (c : Ctx) : AuthOutcome :=
  match (authenticate env authProbe r c).1 with
  | .ok resp =>
      if resp.kind = .handlerOutput then
        if resp.status = 1 then .proceedAnonymous
        else if resp.status % 2 = 1 then .proceedAuthenticated ((resp.status - 3) / 2) true
        else .proceedAuthenticated ((resp.status - 2) / 2) false
      else if resp.kind = .invalidCredential then .rejectInvalidCredential
      else .serverFault
  | .panicked _ => .serverFault

/-- The claim's case analysis, written from its own words (spec §4.3 / §8):
no header ⇒ anonymous; not exactly the two-part `Bearer <token>` shape, or a
token failing the structural validation ⇒ invalid-credential rejection; a
well-formed token with no matching record ⇒ invalid-credential rejection; any
other lookup error ⇒ server fault; a matching record ⇒ that user's identity. -/
def authSpec (env : Env) (header : String) : AuthOutcome :=
  if header = "" then .proceedAnonymous
  else
    match header.splitOn " " with
    | [scheme, token] =>
        if scheme = "Bearer" && validTokenPlaintext token then
          match env.getForToken scopeAuthentication token with
          | .ok (uid, act) => .proceedAuthenticated uid act
          | .error .recordNotFound => .rejectInvalidCredential
          | .error .other => .serverFault
        else .rejectInvalidCredential
    | _ => .rejectInvalidCredential

/-! ## Graceful shutdown (`cmd/api/server.go`, `serve`) -/

/-- The outcome of `srv.ListenAndServe()`: the distinguished
`http.ErrServerClosed` produced by a graceful `Shutdown`, or any other fault. -/
inductive ListenOutcome where
  | serverClosed
  | failed (e : String)
  deriving DecidableEq, Repr

/-- Modelled from the spec (§3, BackgroundTaskSet; the `app.background`
helper in `cmd/api/helpers.go` is not under the available source tree): each
detached task registers with `app.wg` before its body runs and deregisters
unconditionally when it completes, so `app.wg.Wait()` returns exactly when
every registered task has completed. A task is represented by whether it ever
completes. -/
def wgWaitReturns (tasks : List Bool) : Bool := tasks.all id

/-- The sequence of values the shutdown goroutine sends on the unbuffered
`shutdownError` channel (server.go, lines 52–107): first the `srv.Shutdown`
error if there was one, then — only after `app.wg.Wait()` returns — `nil`.
If `wg.Wait()` never returns, the `nil` send never happens. -/
def shutdownSends (shutdownErr : Option String) (tasks : List Bool) :
    List (Option String) :=
  (match shutdownErr with
   | some e => [some e]
   | none => []) ++ (if wgWaitReturns tasks then [none] else [])

/-- The value `serve()` returns (server.go, lines 119–138): a non-`ErrServerClosed`
listener error is returned directly; otherwise `serve` blocks on the first
receive from `shutdownError` and returns it. The outer `none` means `serve`
never returns (it blocks forever); `some none` is the success outcome
(`serve` returns `nil`, the process then reports `Completed`). -/
def serveResult (listen : ListenOutcome) (shutdownErr : Option String)
    (tasks : List Bool) : Option (Option String) :=
  match listen with
  | .failed e => some (some e)
  | .serverClosed => (shutdownSends shutdownErr tasks).head?

/-! ## Signal handling (`cmd/api/server.go`, lines 52–76) -/

/-- The signals of interest: the two relayed by `signal.Notify(quit,
syscall.SIGINT, syscall.SIGTERM)` and everything else. -/
inductive Sig where
  | sigint
  | sigterm
  | other
  deriving DecidableEq, Repr

/-- Whether `signal.Notify` relays the signal to the `quit` channel. -/
def recognized : Sig → Bool
  | .sigint => true
  | .sigterm => true
  | .other => false

/-- The signal-handling state: the one-slot buffered `quit` channel, and
whether the shutdown goroutine has passed its single `s := <-quit` receive
(after which it never reads the channel again). -/
structure SigState where
  buffer : Option Sig
  started : Bool
  deriving DecidableEq, Repr

/-- Delivery of one OS signal: a recognized signal is placed in the buffered
channel if the slot is free and dropped otherwise; unrecognized signals are
not relayed at all. -/
def deliverSig (st : SigState) (s : Sig) : SigState :=
  if recognized s then
    if st.buffer.isNone then { st with buffer := some s } else st
  else st

/-- The shutdown goroutine's reaction: if it is still blocked on `<-quit` and
a signal is buffered, it consumes the signal and initiates the shutdown
sequence (exactly its single receive). Returns whether shutdown was initiated
by this step. -/
def wakeSig (st : SigState) : SigState × Bool :=
  match st.buffer, st.started with
  | some _, false => (⟨none, true⟩, true)
  | _, _ => (st, false)

/-- One delivered signal followed by the goroutine running: the only
interleavings the program allows. -/
def stepSig (st : SigState) (s : Sig) : SigState × Bool :=
  wakeSig (deliverSig st s)

/-- Process a whole sequence of delivered signals, counting how many times the
shutdown sequence is initiated. -/
def runSignals (st : SigState) : List Sig → SigState × ℕ
  | [] => (st, 0)
  | s :: rest =>
      let step := stepSig st s
      let r := runSignals step.1 rest
      (r.1, (if step.2 then 1 else 0) + r.2)

/-- The initial signal-handling state: empty channel, goroutine blocked on its
receive. -/
def sigInit : SigState := ⟨none, false⟩

/-! ## Theorems -/

theorem allow_snd_lastRefill (rate capacity now : ℚ) (l : Limiter) :
    (Limiter.allow rate capacity now l).2.lastRefill = now := by
  unfold Limiter.allow
  split <;> rfl

theorem allowRun_append (rate capacity : ℚ) (l : Limiter) (xs ys : List ℚ) :
    allowRun rate capacity l (xs ++ ys) =
      allowRun rate capacity (allowRun rate capacity l xs) ys := by
  induction xs generalizing l with
  | nil => rfl
  | cons t ts ih => simp [allowRun, ih]

theorem admitCountIn_append (rate capacity lo hi : ℚ) (l : Limiter)
    (xs ys : List ℚ) :
    admitCountIn rate capacity lo hi l (xs ++ ys) =
      admitCountIn rate capacity lo hi l xs +
        admitCountIn rate capacity lo hi (allowRun rate capacity l xs) ys := by
  induction xs generalizing l with
  | nil => simp [admitCountIn, allowRun]
  | cons t ts ih =>
      simp only [List.cons_append, admitCountIn, allowRun]
      rw [show ts.append ys = ts ++ ys from rfl, ih]
      ring

theorem admitCountIn_eq_zero (rate capacity lo hi : ℚ) (l : Limiter)
    (ts : List ℚ) (h : ∀ t ∈ ts, ¬(lo ≤ t ∧ t ≤ hi)) :
    admitCountIn rate capacity lo hi l ts = 0 := by
  induction ts generalizing l with
  | nil => rfl
  | cons t ts ih =>
      have ht := h t (by simp)
      simp only [admitCountIn]
      rw [if_neg (by tauto), ih _ (fun u hu => h u (by simp [hu]))]

/-- The limiter's `lastRefill` tracks the run: after processing `xs`, the rest
of a nondecreasing schedule is still a chain from the new `lastRefill`. -/
theorem allowRun_lastRefill_chain (rate capacity : ℚ) (l : Limiter)
    (xs ys : List ℚ)
    (h : List.Chain (· ≤ ·) l.lastRefill (xs ++ ys)) :
    List.Chain (· ≤ ·) (allowRun rate capacity l xs).lastRefill ys := by
  induction xs generalizing l with
  | nil => simpa [allowRun] using h
  | cons t ts ih =>
      simp only [List.cons_append, List.chain_cons] at h
      have hstep := allow_snd_lastRefill rate capacity t l
      exact ih _ (by rw [hstep]; exact h.2)

/-- Core counting bound: starting from a nonnegative token count, any
time-monotone sequence of calls whose times all lie below `e` admits at most
`tokens + rate * (e - lastRefill)` requests (counted inside any window). -/
theorem admitCountIn_le (rate capacity lo hi : ℚ) (hr : 0 ≤ rate)
    (hc : 0 ≤ capacity) (e : ℚ) (ts : List ℚ) :
    ∀ l : Limiter, 0 ≤ l.tokens → List.Chain (· ≤ ·) l.lastRefill ts →
      (∀ t ∈ ts, t ≤ e) → l.lastRefill ≤ e →
      (admitCountIn rate capacity lo hi l ts : ℚ) ≤
        l.tokens + rate * (e - l.lastRefill) := by
  induction ts with
  | nil =>
      intro l h0 _ _ he
      simp only [admitCountIn, Nat.cast_zero]
      have := mul_nonneg hr (sub_nonneg.mpr he)
      linarith
  | cons t ts ih =>
      intro l h0 hchain hle he
      rw [List.chain_cons] at hchain
      obtain ⟨htl, hchain2⟩ := hchain
      have hte : t ≤ e := hle t (by simp)
      have hmle : min capacity (l.tokens + rate * (t - l.lastRefill)) ≤
          l.tokens + rate * (t - l.lastRefill) := min_le_right _ _
      have hsplit : rate * (t - l.lastRefill) + rate * (e - t) =
          rate * (e - l.lastRefill) := by ring
      by_cases h1 : (1:ℚ) ≤ min capacity (l.tokens + rate * (t - l.lastRefill))
      · have hallow : Limiter.allow rate capacity t l =
            (true, ⟨min capacity (l.tokens + rate * (t - l.lastRefill)) - 1, t⟩) := by
          unfold Limiter.allow
          rw [if_pos h1]
        have hrest := ih ⟨min capacity (l.tokens + rate * (t - l.lastRefill)) - 1, t⟩
          (by simp only; linarith) hchain2 (fun u hu => hle u (by simp [hu])) hte
        simp only at hrest
        simp only [admitCountIn, hallow]
        by_cases hw : lo ≤ t ∧ t ≤ hi
        · rw [if_pos ⟨trivial, hw⟩, Nat.cast_add, Nat.cast_one]
          linarith
        · rw [if_neg (by tauto), Nat.cast_add, Nat.cast_zero]
          linarith
      · have hallow : Limiter.allow rate capacity t l =
            (false, ⟨min capacity (l.tokens + rate * (t - l.lastRefill)), t⟩) := by
          unfold Limiter.allow
          rw [if_neg h1]
        have hpos : (0:ℚ) ≤ min capacity (l.tokens + rate * (t - l.lastRefill)) :=
          le_min hc (by nlinarith [mul_nonneg hr (sub_nonneg.mpr htl)])
        have hrest := ih ⟨min capacity (l.tokens + rate * (t - l.lastRefill)), t⟩
          (by simpa using hpos) hchain2 (fun u hu => hle u (by simp [hu])) hte
        simp only at hrest
        simp only [admitCountIn, hallow]
        rw [if_neg (by simp), Nat.cast_add, Nat.cast_zero]
        linarith

/-- Window bound for a block of calls that all fall inside `[s, s + T]`: the
first call's refill is clamped at `capacity`, and everything after it can only
refill at `rate`, so at most `capacity + rate * T` calls are admitted. -/
theorem admitCountIn_window (rate capacity s T : ℚ) (hr : 0 ≤ rate)
    (hc : 0 ≤ capacity) (hT : 0 ≤ T) (l : Limiter) (h0 : 0 ≤ l.tokens)
    (win : List ℚ) (hchain : List.Chain (· ≤ ·) l.lastRefill win)
    (hwin : ∀ t ∈ win, s ≤ t ∧ t ≤ s + T) :
    (admitCountIn rate capacity s (s + T) l win : ℚ) ≤ capacity + rate * T := by
  cases win with
  | nil =>
      simp only [admitCountIn, Nat.cast_zero]
      nlinarith
  | cons t ts =>
      rw [List.chain_cons] at hchain
      obtain ⟨htl, hchain2⟩ := hchain
      obtain ⟨hts, htT⟩ := hwin t (by simp)
      have hcap : min capacity (l.tokens + rate * (t - l.lastRefill)) ≤
          capacity := min_le_left _ _
      have hmul : rate * (s + T - t) ≤ rate * T := by nlinarith
      by_cases h1 : (1:ℚ) ≤ min capacity (l.tokens + rate * (t - l.lastRefill))
      · have hallow : Limiter.allow rate capacity t l =
            (true, ⟨min capacity (l.tokens + rate * (t - l.lastRefill)) - 1, t⟩) := by
          unfold Limiter.allow
          rw [if_pos h1]
        have hrest := admitCountIn_le rate capacity s (s + T) hr hc (s + T)
          ts ⟨min capacity (l.tokens + rate * (t - l.lastRefill)) - 1, t⟩
          (by simp only; linarith) hchain2
          (fun u hu => (hwin u (by simp [hu])).2) htT
        simp only at hrest
        simp only [admitCountIn, hallow]
        rw [if_pos ⟨trivial, hts, htT⟩, Nat.cast_add, Nat.cast_one]
        linarith
      · have hallow : Limiter.allow rate capacity t l =
            (false, ⟨min capacity (l.tokens + rate * (t - l.lastRefill)), t⟩) := by
          unfold Limiter.allow
          rw [if_neg h1]
        have hpos : (0:ℚ) ≤ min capacity (l.tokens + rate * (t - l.lastRefill)) :=
          le_min hc (by nlinarith [mul_nonneg hr (sub_nonneg.mpr htl)])
        have hrest := admitCountIn_le rate capacity s (s + T) hr hc (s + T)
          ts ⟨min capacity (l.tokens + rate * (t - l.lastRefill)), t⟩
          (by simpa using hpos) hchain2
          (fun u hu => (hwin u (by simp [hu])).2) htT
        simp only at hrest
        simp only [admitCountIn, hallow]
        rw [if_neg (by simp), Nat.cast_add, Nat.cast_zero]
        linarith

theorem lookup_setClient_self (ip : String) (c : client) (m : ClientMap) :
    lookupClient ip (setClient ip c m) = some c := by
  induction m with
  | nil => simp [setClient, lookupClient]
  | cons p m ih =>
      by_cases h : p.1 = ip
      · simp [setClient, lookupClient, h]
      · simp [setClient, lookupClient, h, ih]

theorem lookup_setClient_ne (ip j : String) (c : client) (m : ClientMap)
    (h : j ≠ ip) :
    lookupClient j (setClient ip c m) = lookupClient j m := by
  induction m with
  | nil => simp [setClient, lookupClient, Ne.symm h]
  | cons p m ih =>
      by_cases hp : p.1 = ip
      · simp [setClient, lookupClient, hp, h, Ne.symm h]
      · by_cases hj : p.1 = j
        · simp [setClient, lookupClient, hp, hj, h, Ne.symm h]
        · simp [setClient, lookupClient, hp, hj, h, Ne.symm h, ih]

theorem lookup_rateLimitAdmit_ne (rps burst : ℚ) (ip j : String) (now : ℚ)
    (m : ClientMap) (h : j ≠ ip) :
    lookupClient j (rateLimitAdmit rps burst ip now m).2 = lookupClient j m := by
  unfold rateLimitAdmit
  cases lookupClient ip m <;> simp [lookup_setClient_ne _ _ _ _ h]

theorem rateLimitAdmit_fst_congr (rps burst : ℚ) (b : String) (tb : ℚ)
    (m m' : ClientMap) (h : lookupClient b m' = lookupClient b m) :
    (rateLimitAdmit rps burst b tb m').1 = (rateLimitAdmit rps burst b tb m).1 := by
  unfold rateLimitAdmit
  rw [h]
  cases lookupClient b m <;> simp

theorem lookup_runAdmits_ne (rps burst : ℚ) (a b : String) (hab : b ≠ a)
    (ts : List ℚ) : ∀ m : ClientMap,
    lookupClient b (runAdmits rps burst a m ts) = lookupClient b m := by
  induction ts with
  | nil => intro m; rfl
  | cons t ts ih =>
      intro m
      unfold runAdmits
      rw [ih, lookup_rateLimitAdmit_ne _ _ _ _ _ _ hab]

/-- C1: `serve()` returns its success outcome (`nil`, reported as `Completed`)
only if every registered background task completed — the `nil` send on
`shutdownError` is sequenced after `app.wg.Wait()` — and if some registered
task never completes, `serve()` never returns the success outcome. -/
theorem serve_success_requires_background_completion
    (listen : ListenOutcome) (shutdownErr : Option String) (tasks : List Bool) :
    (serveResult listen shutdownErr tasks = some none → tasks.all id = true) ∧
    ((∃ t ∈ tasks, t = false) →
      serveResult listen shutdownErr tasks ≠ some none) := by
  constructor
  · intro h
    cases listen with
    | failed e => simp [serveResult] at h
    | serverClosed =>
        cases shutdownErr with
        | some e => simp [serveResult, shutdownSends] at h
        | none =>
            by_cases hw : wgWaitReturns tasks = true
            · exact hw
            · simp [serveResult, shutdownSends, hw] at h
  · rintro ⟨t, htmem, htf⟩ h
    cases listen with
    | failed e => simp [serveResult] at h
    | serverClosed =>
        cases shutdownErr with
        | some e => simp [serveResult, shutdownSends] at h
        | none =>
            by_cases hw : wgWaitReturns tasks = true
            · have : t = true := by
                have := List.all_eq_true.mp hw t htmem
                simpa using this
              rw [htf] at this
              exact Bool.false_ne_true this
            · simp [serveResult, shutdownSends, hw] at h

/-- Witness for C1: with a graceful listener close, no shutdown error, and a
single background task that never completes, `serve()` never returns its
success outcome. -/
theorem serve_success_requires_background_completion_witness :
    serveResult .serverClosed none [false] ≠ some none :=
  (serve_success_requires_background_completion .serverClosed none [false]).2
    ⟨false, by decide, rfl⟩

theorem runSignals_after_started (sigs : List Sig) :
    ∀ b : Option Sig, (runSignals ⟨b, true⟩ sigs).2 = 0 := by
  induction sigs with
  | nil => intro b; rfl
  | cons s rest ih =>
      intro b
      have hstep : ∃ b', stepSig ⟨b, true⟩ s = (⟨b', true⟩, false) := by
        cases b <;> cases s <;> simp [stepSig, deliverSig, wakeSig, recognized]
      obtain ⟨b', hb'⟩ := hstep
      simp [runSignals, hb', ih]

/-- C2: over any sequence of delivered signals, the shutdown sequence is
initiated exactly once iff some recognized signal (SIGINT/SIGTERM) arrives —
and never more than once — and once the goroutine has taken its single
receive, every further signal is a no-op for the shutdown state. -/
theorem shutdown_initiated_exactly_once :
    (∀ sigs : List Sig, (runSignals sigInit sigs).2 =
        if sigs.any recognized then 1 else 0) ∧
    (∀ (b : Option Sig) (s : Sig), (stepSig ⟨b, true⟩ s).2 = false ∧
        (stepSig ⟨b, true⟩ s).1.started = true) := by
  constructor
  · intro sigs
    induction sigs with
    | nil => rfl
    | cons s rest ih =>
        by_cases hs : recognized s = true
        · have hstep : stepSig sigInit s = (⟨none, true⟩, true) := by
            cases s <;> simp_all [stepSig, deliverSig, wakeSig, sigInit, recognized]
          simp [runSignals, hstep, runSignals_after_started, List.any_cons, hs]
        · have hstep : stepSig sigInit s = (sigInit, false) := by
            cases s <;> simp_all [stepSig, deliverSig, wakeSig, sigInit, recognized]
          simp only [runSignals, hstep, List.any_cons, hs, if_neg, Bool.false_or]
          simpa using ih
  · intro b s
    cases b <;> cases s <;> simp [stepSig, deliverSig, wakeSig, recognized]

theorem chain_append_left {α : Type} (rel : α → α → Prop) (x : α)
    (xs ys : List α) (h : List.Chain rel x (xs ++ ys)) :
    List.Chain rel x xs := by
  induction xs generalizing x with
  | nil => exact List.Chain.nil
  | cons w ws ih =>
      rw [List.cons_append, List.chain_cons] at h
      exact List.chain_cons.mpr ⟨h.1, ih _ h.2⟩

theorem allowRun_tokens_nonneg (rate capacity : ℚ) (hr : 0 ≤ rate)
    (hc : 0 ≤ capacity) (ts : List ℚ) :
    ∀ l : Limiter, 0 ≤ l.tokens → List.Chain (· ≤ ·) l.lastRefill ts →
      0 ≤ (allowRun rate capacity l ts).tokens := by
  induction ts with
  | nil => intro l h0 _; exact h0
  | cons t ts ih =>
      intro l h0 hchain
      rw [List.chain_cons] at hchain
      have hstep : 0 ≤ (Limiter.allow rate capacity t l).2.tokens := by
        unfold Limiter.allow
        by_cases h1 : (1:ℚ) ≤ min capacity (l.tokens + rate * (t - l.lastRefill))
        · rw [if_pos h1]; simp only; linarith
        · rw [if_neg h1]
          simp only
          exact le_min hc
            (by nlinarith [mul_nonneg hr (sub_nonneg.mpr hchain.1)])
      exact ih _ hstep (by rw [allow_snd_lastRefill]; exact hchain.2)

/-- C5: against a single token-bucket limiter with capacity `C` and refill
rate `R`, any nondecreasing schedule of `allow()` calls yields at most
`C + R*T` admissions (`true` results) inside any sliding window `[s, s+T]`.
The schedule is presented split into the calls before, inside, and after the
window. -/
theorem tokenBucket_sliding_window_bound (rate capacity s T : ℚ)
    (hr : 0 ≤ rate) (hc : 0 ≤ capacity) (hT : 0 ≤ T)
    (l0 : Limiter) (h0 : 0 ≤ l0.tokens)
    (pre win post : List ℚ)
    (hchain : List.Chain (· ≤ ·) l0.lastRefill (pre ++ win ++ post))
    (hpre : ∀ t ∈ pre, t < s)
    (hwin : ∀ t ∈ win, s ≤ t ∧ t ≤ s + T)
    (hpost : ∀ t ∈ post, s + T < t) :
    (admitCountIn rate capacity s (s + T) l0 (pre ++ win ++ post) : ℚ) ≤
      capacity + rate * T := by
  have hassoc : pre ++ win ++ post = pre ++ (win ++ post) := by
    rw [List.append_assoc]
  rw [hassoc] at hchain ⊢
  rw [admitCountIn_append, admitCountIn_append]
  rw [admitCountIn_eq_zero rate capacity s (s + T) l0 pre
    (fun t ht => by have := hpre t ht; intro hco; linarith [hco.1])]
  rw [admitCountIn_eq_zero rate capacity s (s + T) _ post
    (fun t ht => by have := hpost t ht; intro hco; linarith [hco.2])]
  have hchain1 : List.Chain (· ≤ ·)
      (allowRun rate capacity l0 pre).lastRefill (win ++ post) :=
    allowRun_lastRefill_chain rate capacity l0 pre (win ++ post) hchain
  have hchain2 : List.Chain (· ≤ ·)
      (allowRun rate capacity l0 pre).lastRefill win :=
    chain_append_left _ _ win post hchain1
  have htok : 0 ≤ (allowRun rate capacity l0 pre).tokens :=
    allowRun_tokens_nonneg rate capacity hr hc pre l0 h0
      (chain_append_left _ _ pre (win ++ post) hchain)
  have hmain := admitCountIn_window rate capacity s T hr hc hT
    (allowRun rate capacity l0 pre) htok win hchain2 hwin
  push_cast
  push_cast at hmain
  linarith

/-- Witness for C5 at a concrete schedule: capacity 4, rate 2, window
`[0, 1]`, five immediate calls inside the window. -/
theorem tokenBucket_sliding_window_bound_witness :
    (admitCountIn 2 4 0 (0 + 1) (Limiter.new 4 0)
      ([] ++ [0, 0, 0, 0, 0] ++ []) : ℚ) ≤ 4 + 2 * 1 :=
  tokenBucket_sliding_window_bound 2 4 0 1 (by norm_num) (by norm_num)
    (by norm_num) (Limiter.new 4 0) (by norm_num [Limiter.new])
    [] [0, 0, 0, 0, 0] [] (by simp [Limiter.new]) (by simp)
    (by intro t ht; simp at ht; simp [ht]) (by simp)

theorem prefix_cons {α : Type} (a : α) (l L : List α) (h : l <+: L) :
    a :: l <+: a :: L := by
  obtain ⟨t, ht⟩ := h
  exact ⟨t, by rw [List.cons_append, ht]⟩

theorem authenticate_trace_ordered (env : Env) (next : Handler) (L : List Stage)
    (hnext : ∀ r c, (next r c).2.2 <+: L) (r : Request) (c : Ctx) :
    (authenticate env next r c).2.2 <+: Stage.authenticateStage :: L := by
  unfold authenticate
  repeat' split
  all_goals first
    | exact prefix_cons _ _ _ (hnext _ _)
    | exact ⟨L, rfl⟩

theorem rateLimit_trace_ordered (env : Env) (next : Handler) (L : List Stage)
    (hnext : ∀ r c, (next r c).2.2 <+: L) (r : Request) (c : Ctx) :
    (rateLimit env next r c).2.2 <+: Stage.rateLimitStage :: L := by
  unfold rateLimit
  repeat' split
  all_goals first
    | exact prefix_cons _ _ _ (hnext _ _)
    | exact ⟨L, rfl⟩

theorem enableCORS_trace_ordered (env : Env) (next : Handler) (L : List Stage)
    (hnext : ∀ r c, (next r c).2.2 <+: L) (r : Request) (c : Ctx) :
    (enableCORS env next r c).2.2 <+: Stage.enableCORSStage :: L := by
  unfold enableCORS
  repeat' split
  all_goals first
    | exact prefix_cons _ _ _ (hnext _ _)
    | exact ⟨L, rfl⟩

/-- C3: the chain built by `routes()` enters its stages in exactly the order
outcome measurement, panic containment, cross-origin policy, admission
control, authentication, terminal dispatch — every request's stage trace is a
prefix (cut short only by a short-circuiting stage) of that fixed order. -/
theorem pipeline_stage_order (env : Env) (term : Terminal) (r : Request)
    (c : Ctx) :
    (routes env term r c).2.2 <+:
      [Stage.metricsStage, Stage.recoverPanicStage, Stage.enableCORSStage,
       Stage.rateLimitStage, Stage.authenticateStage, Stage.routerStage] := by
  have h5 : ∀ r' c', (dispatch term r' c').2.2 <+: [Stage.routerStage] :=
    fun r' c' => ⟨[], by simp [dispatch]⟩
  have h4 := fun r' c' =>
    authenticate_trace_ordered env (dispatch term) _ h5 r' c'
  have h3 := fun r' c' =>
    rateLimit_trace_ordered env (authenticate env (dispatch term)) _ h4 r' c'
  have h2 := fun r' c' =>
    enableCORS_trace_ordered env (rateLimit env (authenticate env (dispatch term))) _ h3 r' c'
  exact prefix_cons _ _ _ (prefix_cons _ _ _ (h2 r (bumpRequests c)))

/-- C6: after a sweep at time `now`, an entry is present iff it was present
before and its `lastSeen` is within the three-minute staleness threshold;
and the admission path (`rateLimitAdmit`, the only other writer of the map)
never removes an entry. -/
theorem sweep_eviction_exact :
    (∀ (now : ℚ) (m : ClientMap) (ip : String) (e : client),
        (ip, e) ∈ sweepClients now m ↔ (ip, e) ∈ m ∧ now - e.lastSeen ≤ 180) ∧
    (∀ (rps burst : ℚ) (ip : String) (now : ℚ) (m : ClientMap) (j : String),
        (lookupClient j m).isSome = true →
        (lookupClient j (rateLimitAdmit rps burst ip now m).2).isSome = true) := by
  refine ⟨?_, ?_⟩
  · intro now m ip e
    simp [sweepClients, List.mem_filter, not_lt]
  · intro rps burst ip now m j h
    by_cases hj : j = ip
    · subst hj
      unfold rateLimitAdmit
      cases lookupClient j m <;> simp [lookup_setClient_self]
    · rw [lookup_rateLimitAdmit_ne _ _ _ _ _ _ hj]
      exact h

/-- Witness for C6: the admission path preserves an existing entry for a
different identity. -/
theorem sweep_eviction_exact_witness :
    (lookupClient "a" (rateLimitAdmit 2 4 "b" 0
      [("a", ⟨⟨1, 0⟩, 0⟩)]).2).isSome = true :=
  sweep_eviction_exact.2 2 4 "b" 0 [("a", ⟨⟨1, 0⟩, 0⟩)] "a" (by decide)

/-- C7: distinct identities never share token state — any sequence of
admission checks from identity `a` (including one exhausting `a`'s bucket)
leaves the admission decision for identity `b` unchanged. -/
theorem rateLimit_client_isolation (rps burst : ℚ) (a b : String) (hab : b ≠ a)
    (m : ClientMap) (ts : List ℚ) (tb : ℚ) :
    (rateLimitAdmit rps burst b tb (runAdmits rps burst a m ts)).1 =
      (rateLimitAdmit rps burst b tb m).1 :=
  rateLimitAdmit_fst_congr rps burst b tb m _
    (lookup_runAdmits_ne rps burst a b hab ts m)

/-- Witness for C7: identity `"1.2.3.4"` exhausting a burst-4 bucket with five
immediate calls does not change the decision for identity `"5.6.7.8"`. -/
theorem rateLimit_client_isolation_witness :
    (rateLimitAdmit 2 4 "5.6.7.8" 0
        (runAdmits 2 4 "1.2.3.4" [] [0, 0, 0, 0, 0])).1 =
      (rateLimitAdmit 2 4 "5.6.7.8" 0 []).1 :=
  rateLimit_client_isolation 2 4 "1.2.3.4" "5.6.7.8" (by decide) [] [0, 0, 0, 0, 0] 0

/-- C4: the authentication stage realizes exactly the claimed case analysis —
for every environment, request, and context, running the real `authenticate`
middleware (observed through a probe next-handler) matches `authSpec`, the
case analysis written from the claim's words: no header ⇒ anonymous; malformed
shape or invalid token ⇒ invalid-credential rejection (the lookup collaborator
is not consulted, as `authSpec` never touches it on those branches); lookup
miss ⇒ invalid-credential rejection; other lookup error ⇒ server fault; hit ⇒
that user's identity. -/
theorem authenticate_case_analysis (env : Env) (r : Request) (c : Ctx) :
    authResult env r c = authSpec env r.authorizationHeader := by
  unfold authResult authSpec authenticate authProbe
  by_cases h : r.authorizationHeader = ""
  · simp [h, contextGetUser, identCode]
  · rw [if_neg h, if_neg h]
    cases hsp : r.authorizationHeader.splitOn " " with
    | nil => simp [invalidAuthenticationTokenResponse]
    | cons scheme rest =>
        cases rest with
        | nil => simp [invalidAuthenticationTokenResponse]
        | cons token rest2 =>
            cases rest2 with
            | cons x xs => simp [invalidAuthenticationTokenResponse]
            | nil =>
                by_cases hb : scheme = "Bearer"
                · by_cases hv : validTokenPlaintext token = true
                  · cases hlk : env.getForToken scopeAuthentication token with
                    | ok p =>
                        obtain ⟨uid, act⟩ := p
                        cases act
                        · have h1 : 2 * uid + 2 ≠ 1 := by omega
                          have h2 : (2 * uid + 2) % 2 = 0 := by omega
                          have h3 : (2 * uid + 2 - 2) / 2 = uid := by omega
                          simp [hb, hv, hlk, contextGetUser, identCode, h1, h2, h3]
                        · have h1 : 2 * uid + 3 ≠ 1 := by omega
                          have h2 : (2 * uid + 3) % 2 = 1 := by omega
                          have h3 : (2 * uid + 3 - 3) / 2 = uid := by omega
                          simp [hb, hv, hlk, contextGetUser, identCode, h1, h2, h3]
                    | error e =>
                        cases e <;>
                          simp [hb, hv, hlk, invalidAuthenticationTokenResponse,
                            serverErrorResponse]
                  · simp [hb, hv, invalidAuthenticationTokenResponse]
                · simp [hb, invalidAuthenticationTokenResponse]

theorem rateLimit_reject_run (env : Env) (next : Handler) (r : Request)
    (c : Ctx) (hen : env.limiterEnabled = true)
    (hrej : (rateLimitAdmit env.rps env.burst r.ip r.now c.state.clients).1 = false) :
    rateLimit env next r c =
      (.ok rateLimitExceededResponse,
       withClients c (rateLimitAdmit env.rps env.burst r.ip r.now c.state.clients).2,
       [Stage.rateLimitStage]) := by
  unfold rateLimit
  rw [if_pos hen, if_neg (by simp [hrej])]

theorem enableCORS_passthrough (env : Env) (next : Handler) (r : Request)
    (c : Ctx)
    (hnopre : ¬((!(decide (r.origin = "")) && env.trustedOrigins.contains r.origin) = true ∧
        (r.method = "OPTIONS" && !(decide (r.accessControlRequestMethod = ""))) = true)) :
    ∃ c' : Ctx, c'.state = c.state ∧
      enableCORS env next r c =
        ((next r c').1, (next r c').2.1,
         Stage.enableCORSStage :: (next r c').2.2) := by
  by_cases hcors : (!(decide (r.origin = "")) && env.trustedOrigins.contains r.origin) = true
  · have hnp : (r.method = "OPTIONS" && !(decide (r.accessControlRequestMethod = ""))) = false := by
      cases hx : (r.method = "OPTIONS" && !(decide (r.accessControlRequestMethod = ""))) with
      | true => exact absurd ⟨hcors, hx⟩ hnopre
      | false => rfl
    refine ⟨corsAllowOrigin r.origin (corsVary c), rfl, ?_⟩
    unfold enableCORS
    rw [if_pos hcors, if_neg (by simp [hnp])]
  · refine ⟨corsVary c, rfl, ?_⟩
    unfold enableCORS
    rw [if_neg hcors]

/-- C8: a request rejected by admission control never enters the
authentication stage or the terminal dispatcher, yet the outcome-measurement
wrapper's trailing accounting (response counter and per-status tally) still
runs for it, tallying the 429 response. -/
theorem admission_reject_short_circuit (env : Env) (term : Terminal)
    (r : Request) (c : Ctx)
    (henabled : env.limiterEnabled = true)
    (hnopre : ¬((!(decide (r.origin = "")) && env.trustedOrigins.contains r.origin) = true ∧
        (r.method = "OPTIONS" && !(decide (r.accessControlRequestMethod = ""))) = true))
    (hreject : (rateLimitAdmit env.rps env.burst r.ip r.now c.state.clients).1 = false) :
    Stage.authenticateStage ∉ (routes env term r c).2.2 ∧
    Stage.routerStage ∉ (routes env term r c).2.2 ∧
    (routes env term r c).1 = .ok rateLimitExceededResponse ∧
    (routes env term r c).2.1.state.totalResponsesSent =
      c.state.totalResponsesSent + 1 ∧
    (routes env term r c).2.1.state.responsesByStatus 429 =
      c.state.responsesByStatus 429 + 1 := by
  obtain ⟨c', hst, hcors⟩ := enableCORS_passthrough env
    (rateLimit env (authenticate env (dispatch term))) r (bumpRequests c) hnopre
  have hcl : c'.state.clients = c.state.clients := by
    rw [hst]; simp [bumpRequests]
  have hrl := rateLimit_reject_run env (authenticate env (dispatch term)) r c'
    henabled (by rw [hcl]; exact hreject)
  have hroutes : routes env term r c =
      (.ok rateLimitExceededResponse,
       ⟨(withClients c' (rateLimitAdmit env.rps env.burst r.ip r.now c'.state.clients).2).header,
        metricsAccount (.ok rateLimitExceededResponse)
          (withClients c' (rateLimitAdmit env.rps env.burst r.ip r.now c'.state.clients).2).state⟩,
       [Stage.metricsStage, Stage.recoverPanicStage, Stage.enableCORSStage,
        Stage.rateLimitStage]) := by
    show (metrics (recoverPanic (enableCORS env (rateLimit env
      (authenticate env (dispatch term))))) r c) = _
    unfold metrics recoverPanic
    rw [hcors, hrl]
    rfl
  rw [hroutes]
  refine ⟨by simp, by simp, rfl, ?_, ?_⟩
  · simp [metricsAccount, withClients, hst, bumpRequests]
  · simp [metricsAccount, withClients, rateLimitExceededResponse, hst, bumpRequests]

/-- Witness for C8: with the limiter enabled at burst 0 and an empty client
map, the very first request is rejected and short-circuits as claimed. -/
theorem admission_reject_short_circuit_witness :
    Stage.authenticateStage ∉
      (routes ⟨fun _ _ => .error .recordNotFound, fun _ => .ok [], [], true, 2, 0⟩
        (fun _ c => (.ok ⟨200, .handlerOutput⟩, c))
        ⟨"", "", "GET", "", "10.0.0.1", 0, none⟩
        ⟨[], ⟨[], 0, 0, fun _ => 0⟩⟩).2.2 ∧
    Stage.routerStage ∉
      (routes ⟨fun _ _ => .error .recordNotFound, fun _ => .ok [], [], true, 2, 0⟩
        (fun _ c => (.ok ⟨200, .handlerOutput⟩, c))
        ⟨"", "", "GET", "", "10.0.0.1", 0, none⟩
        ⟨[], ⟨[], 0, 0, fun _ => 0⟩⟩).2.2 ∧
    (routes ⟨fun _ _ => .error .recordNotFound, fun _ => .ok [], [], true, 2, 0⟩
        (fun _ c => (.ok ⟨200, .handlerOutput⟩, c))
        ⟨"", "", "GET", "", "10.0.0.1", 0, none⟩
        ⟨[], ⟨[], 0, 0, fun _ => 0⟩⟩).1 = .ok rateLimitExceededResponse ∧
    (routes ⟨fun _ _ => .error .recordNotFound, fun _ => .ok [], [], true, 2, 0⟩
        (fun _ c => (.ok ⟨200, .handlerOutput⟩, c))
        ⟨"", "", "GET", "", "10.0.0.1", 0, none⟩
        ⟨[], ⟨[], 0, 0, fun _ => 0⟩⟩).2.1.state.totalResponsesSent = 0 + 1 ∧
    (routes ⟨fun _ _ => .error .recordNotFound, fun _ => .ok [], [], true, 2, 0⟩
        (fun _ c => (.ok ⟨200, .handlerOutput⟩, c))
        ⟨"", "", "GET", "", "10.0.0.1", 0, none⟩
        ⟨[], ⟨[], 0, 0, fun _ => 0⟩⟩).2.1.state.responsesByStatus 429 = 0 + 1 :=
  admission_reject_short_circuit
    ⟨fun _ _ => .error .recordNotFound, fun _ => .ok [], [], true, 2, 0⟩
    (fun _ c => (.ok ⟨200, .handlerOutput⟩, c))
    ⟨"", "", "GET", "", "10.0.0.1", 0, none⟩
    ⟨[], ⟨[], 0, 0, fun _ => 0⟩⟩
    rfl (by decide)
    (by
      simp [rateLimitAdmit, lookupClient, Limiter.new, Limiter.allow]
      norm_num)

/-- C9, evaluated at the failing input (a handler that panics): the pipeline
produces exactly one structured 500 fault response and no panic escapes (the
process survives), but the header set by the recovery path is literally named
`"Connection:"` — the source's `w.Header().Set("Connection:", "close")`
carries a trailing colon inside the key — so no `Connection` header exists in
the response and the connection is NOT effectively marked for closing. -/
theorem recoverPanic_connection_header_typo :
    (routes ⟨fun _ _ => .error .recordNotFound, fun _ => .ok [], [], false, 2, 4⟩
        (fun _ c => (.panicked "runtime fault", c))
        ⟨"", "", "GET", "", "10.0.0.1", 0, none⟩
        ⟨[], ⟨[], 0, 0, fun _ => 0⟩⟩).1 = .ok serverErrorResponse ∧
    ("Connection:", "close") ∈
      (routes ⟨fun _ _ => .error .recordNotFound, fun _ => .ok [], [], false, 2, 4⟩
        (fun _ c => (.panicked "runtime fault", c))
        ⟨"", "", "GET", "", "10.0.0.1", 0, none⟩
        ⟨[], ⟨[], 0, 0, fun _ => 0⟩⟩).2.1.header ∧
    ((routes ⟨fun _ _ => .error .recordNotFound, fun _ => .ok [], [], false, 2, 4⟩
        (fun _ c => (.panicked "runtime fault", c))
        ⟨"", "", "GET", "", "10.0.0.1", 0, none⟩
        ⟨[], ⟨[], 0, 0, fun _ => 0⟩⟩).2.1.header.all
      (fun p => !(decide (p.1 = "Connection")))) = true := by
  refine ⟨rfl, ?_, by decide⟩
  decide

/-- C10: the terminal-side guards form the fixed hierarchy: an anonymous
identity gets `authenticationRequiredResponse`; an authenticated but
non-activated one gets `inactiveAccountResponse`; the external permission
collaborator is queried only for an authenticated, activated identity; and
(given that the wrapped handler does not itself emit the guard's rejection) a
permission-denied rejection is produced only for an authenticated, activated
identity. -/
theorem guard_hierarchy (env : Env) (code : String) (next : GHandler)
    (r : Request) (u : Identity) (hctx : r.ctxUser = some u)
    (hnext : ∀ r' c', (next r' c').1 ≠ .ok notPermittedResponse) (c : Ctx) :
    (u.isAnonymous = true →
      (requirePermissions env code next r c).1 = .ok authenticationRequiredResponse ∧
      (requirePermissions env code next r c).2.2 = []) ∧
    (u.isAnonymous = false → u.activatedFlag = false →
      (requirePermissions env code next r c).1 = .ok inactiveAccountResponse ∧
      (requirePermissions env code next r c).2.2 = []) ∧
    (GuardEvent.permissionQuery ∈ (requirePermissions env code next r c).2.2 →
      u.isAnonymous = false ∧ u.activatedFlag = true) ∧
    ((requirePermissions env code next r c).1 = .ok notPermittedResponse →
      u.isAnonymous = false ∧ u.activatedFlag = true) := by
  cases u with
  | anonymous =>
      refine ⟨fun _ => ?_, fun hf => ?_, fun hmem => ?_, fun hres => ?_⟩
      · simp [requirePermissions, requireActivatedUser, requireAuthenticatedUser,
          contextGetUser, hctx, Identity.isAnonymous]
      · simp [Identity.isAnonymous] at hf
      · simp [requirePermissions, requireActivatedUser, requireAuthenticatedUser,
          contextGetUser, hctx, Identity.isAnonymous] at hmem
      · simp [requirePermissions, requireActivatedUser, requireAuthenticatedUser,
          contextGetUser, hctx, Identity.isAnonymous,
          authenticationRequiredResponse, notPermittedResponse] at hres
  | authenticated uid act =>
      cases act with
      | false =>
          refine ⟨fun ht => ?_, fun _ _ => ?_, fun hmem => ?_, fun hres => ?_⟩
          · simp [Identity.isAnonymous] at ht
          · simp [requirePermissions, requireActivatedUser, requireAuthenticatedUser,
              contextGetUser, hctx, Identity.isAnonymous, Identity.activatedFlag]
          · simp [requirePermissions, requireActivatedUser, requireAuthenticatedUser,
              contextGetUser, hctx, Identity.isAnonymous,
              Identity.activatedFlag] at hmem
          · simp [requirePermissions, requireActivatedUser, requireAuthenticatedUser,
              contextGetUser, hctx, Identity.isAnonymous, Identity.activatedFlag,
              inactiveAccountResponse, notPermittedResponse] at hres
      | true =>
          refine ⟨fun ht => ?_, fun _ hf => ?_, fun _ => ?_, fun hres => ?_⟩
          · simp [Identity.isAnonymous] at ht
          · simp [Identity.activatedFlag] at hf
          · exact ⟨rfl, rfl⟩
          · cases hp : env.permissionsFor uid with
            | error e =>
                simp [requirePermissions, requireActivatedUser,
                  requireAuthenticatedUser, contextGetUser, hctx,
                  Identity.isAnonymous, Identity.activatedFlag, Identity.userIdOf,
                  hp, serverErrorResponse, notPermittedResponse] at hres
            | ok perms =>
                by_cases hcont : perms.contains code = true
                · have hmem : code ∈ perms := by simpa using hcont
                  simp [requirePermissions, requireActivatedUser,
                    requireAuthenticatedUser, contextGetUser, hctx,
                    Identity.isAnonymous, Identity.activatedFlag,
                    Identity.userIdOf, hp, hmem] at hres
                  exact absurd hres (hnext _ _)
                · exact ⟨rfl, rfl⟩

/-- Witness for C10: with an anonymous context identity, the guard chain
rejects with the authentication-required response. -/
theorem guard_hierarchy_witness :
    (requirePermissions
        ⟨fun _ _ => .error .recordNotFound, fun _ => .ok ["movies:read"],
         [], false, 2, 4⟩
        "movies:read"
        (fun _ c => (.ok ⟨200, .handlerOutput⟩, c, []))
        ⟨"", "", "GET", "", "10.0.0.1", 0, some .anonymous⟩
        ⟨[], ⟨[], 0, 0, fun _ => 0⟩⟩).1 = .ok authenticationRequiredResponse :=
  ((guard_hierarchy
      ⟨fun _ _ => .error .recordNotFound, fun _ => .ok ["movies:read"],
       [], false, 2, 4⟩
      "movies:read"
      (fun _ c => (.ok ⟨200, .handlerOutput⟩, c, []))
      ⟨"", "", "GET", "", "10.0.0.1", 0, some .anonymous⟩
      .anonymous rfl (fun _ _ => by simp [notPermittedResponse])
      ⟨[], ⟨[], 0, 0, fun _ => 0⟩⟩).1 rfl).1

end Greenlight
